import Mathlib

/-!
Shallow embedding of the worktree maintenance tool (Rust sources under src/):
`worktree.rs`, `status.rs`, `git.rs`, `commands/clean.rs`, `commands/sync.rs`.

Filesystem and libgit2 effects are modelled as explicit oracle records
(`FsEnv`, repository handles, subprocess outcome functions); paths are
modelled as `String` (the Rust code works with UTF-8-convertible paths in
every branch the claims touch). Machine integers: `u32`/`usize` become
`Nat`, `i64` timestamps become `Int` (no overflow is reachable in the
modelled arithmetic).
-/

namespace Workty

/-- Filesystem oracle: `Path::canonicalize` (may fail) and `Path::parent`. -/
structure FsEnv where
  canonicalize : String → Option String
  parent : String → Option String

/-- The `GitRepo` struct from `git.rs` (the `Mutex<git2::Repository>` handle is
modelled separately as oracle functions). -/
structure GitRepo where
  root : String
  common_dir : String

/-- The `Worktree` struct from `worktree.rs`. -/
structure Worktree where
  path : String
  head : String
  branch : Option String
  branch_short : Option String
  detached : Bool
  locked : Bool
  prunable : Bool
  deriving DecidableEq, Repr

/-- `check_same_path` from `worktree.rs`: `p1.canonicalize().ok() == p2.canonicalize().ok()`. -/
def check_same_path (fs : FsEnv) (p1 p2 : String) : Bool :=
  fs.canonicalize p1 = fs.canonicalize p2

/-- `Worktree::is_main_worktree` from `worktree.rs`. -/
def Worktree.is_main_worktree (wt : Worktree) (fs : FsEnv) (repo : GitRepo) : Bool :=
  (fs.parent repo.common_dir = some wt.path) || check_same_path fs wt.path repo.root

/-- Splits a character list at `/` separators (accumulator holds the current
segment reversed). -/
def pathSegmentsAux : List Char → List Char → List String
  | [], acc => [String.mk acc.reverse]
  | c :: cs, acc =>
    if c = '/' then String.mk acc.reverse :: pathSegmentsAux cs []
    else pathSegmentsAux cs (c :: acc)

/-- Model of `Path::file_name` for `/`-separated absolute paths without `..`
components: the last nonempty segment. -/
def pathFileName (p : String) : Option String :=
  ((pathSegmentsAux p.toList []).filter (fun s => s ≠ "")).getLast?

/-- `Worktree::name` from `worktree.rs`. -/
def Worktree.name (wt : Worktree) : String :=
  match wt.branch_short with
  | some b => b
  | none => (pathFileName wt.path).getD "unknown"

/-- `find_worktree` from `worktree.rs`: first worktree whose short branch name
or final path segment equals `name`. -/
def find_worktree (worktrees : List Worktree) (name : String) : Option Worktree :=
  worktrees.find? (fun wt =>
    wt.branch_short = some name || pathFileName wt.path = some name)

/-- The `WorktreeStatus` struct from `status.rs`. -/
structure WorktreeStatus where
  dirty_count : Nat
  upstream : Option String
  ahead : Option Nat
  behind : Option Nat
  last_commit_time : Option Int
  behind_main : Option Nat
  untracked_commits : Option Nat
  upstream_gone : Bool
  deriving DecidableEq, Repr

/-- `WorktreeStatus::default()` (all fields zero / `None` / `false`). -/
def WorktreeStatus.default : WorktreeStatus :=
  ⟨0, none, none, none, none, none, none, false⟩

/-- Result of `git2` `repo.head()` when it succeeds: a reference with an
optional target OID, branch-ness, full name and shorthand. -/
structure HeadRef where
  target : Option String
  isBranch : Bool
  refName : Option String
  shorthand : Option String

/-- `branch.upstream()` result data: `.name().ok().flatten()` and
`.get().target()`. -/
structure UpstreamInfo where
  uname : Option String
  target : Option String

/-- A local branch as needed by `get_ahead_behind`: its configured upstream,
if any (`branch.upstream()` erring means no upstream configured). -/
structure BranchInfo where
  upstream : Option UpstreamInfo

/-- Oracle for one successfully opened `git2::Repository`: everything the
status functions read from it. `statusesLen = none` models
`repo.statuses(..)` returning `Err`; `headCommitTime = none` models
`head.peel_to_commit()` failing. -/
structure RepoHandle where
  headRef : Option HeadRef
  headDetached : Bool
  statusesLen : Option Nat
  findBranch : String → Option BranchInfo
  headCommitTime : Option Int
  graphAheadBehind : String → String → Option (Nat × Nat)

/-- `get_dirty_count` from `status.rs`: length of the status list, `0` on error. -/
def get_dirty_count (h : RepoHandle) : Nat :=
  h.statusesLen.getD 0

/-- `get_ahead_behind` from `status.rs`: returns
`(upstream name, ahead, behind, upstream_gone)`. -/
def get_ahead_behind (h : RepoHandle) (worktree : Worktree) :
    Option String × Option Nat × Option Nat × Bool :=
  if worktree.detached then (none, none, none, false)
  else
    match h.headRef with
    | none => (none, none, none, false)
    | some hr =>
      if !hr.isBranch then (none, none, none, false)
      else
        match hr.shorthand with
        | none => (none, none, none, false)
        | some branch_name =>
          match h.findBranch branch_name with
          | none => (none, none, none, false)
          | some br =>
            match br.upstream with
            | none => (none, none, none, false)
            | some up =>
              let upstream_name := up.uname
              match hr.target with
              | none => (upstream_name, none, none, false)
              | some local_oid =>
                match up.target with
                | none => (upstream_name, none, none, true)
                | some upstream_oid =>
                  match h.graphAheadBehind local_oid upstream_oid with
                  | some ab => (upstream_name, some ab.1, some ab.2, false)
                  | none => (upstream_name, none, none, true)

/-- `get_last_commit_time` from `status.rs`: seconds between `now` and the
HEAD commit time; `none` if HEAD or the peel fails. -/
def get_last_commit_time (h : RepoHandle) (now : Int) : Option Int :=
  match h.headRef with
  | none => none
  | some _ => h.headCommitTime.map (fun t => now - t)

/-- `get_worktree_status_full` from `status.rs`, parameterised by the
repository-open oracle, the wall clock and the precomputed main-branch OID. -/
def get_worktree_status_full (openRepo : String → Option RepoHandle) (now : Int)
    (main_oid : Option String) (worktree : Worktree) : WorktreeStatus :=
  match openRepo worktree.path with
  | none => WorktreeStatus.default
  | some h =>
    let dc := get_dirty_count h
    let aheadBehind := get_ahead_behind h worktree
    let lct := get_last_commit_time h now
    let bmUtc : Option Nat × Option Nat :=
      match main_oid with
      | some mo =>
        match h.headRef.bind (fun r => r.target) with
        | some head_oid =>
          let ab := (h.graphAheadBehind head_oid mo).getD (0, 0)
          let untracked :=
            if aheadBehind.1.isNone && !worktree.detached then some ab.1 else none
          (some ab.2, untracked)
        | none => (none, none)
      | none => (none, none)
    { dirty_count := dc
      upstream := aheadBehind.1
      ahead := aheadBehind.2.1
      behind := aheadBehind.2.2.1
      last_commit_time := lct
      behind_main := bmUtc.1
      untracked_commits := bmUtc.2
      upstream_gone := aheadBehind.2.2.2 }

/-- `get_all_statuses` from `status.rs`: rayon `par_iter().map().collect()`
preserves input order, so it is an order-preserving map. -/
def get_all_statuses (openRepo : String → Option RepoHandle) (now : Int)
    (main_oid : Option String) (worktrees : List Worktree) :
    List (Worktree × WorktreeStatus) :=
  worktrees.map (fun wt => (wt, get_worktree_status_full openRepo now main_oid wt))

/-- `is_worktree_dirty` from `status.rs`: `false` when the worktree path
cannot be opened as a repository. -/
def is_worktree_dirty (openRepo : String → Option RepoHandle) (wt : Worktree) : Bool :=
  match openRepo wt.path with
  | some h => get_dirty_count h > 0
  | none => false

/-- Oracle for the main repository handle as used by `GitRepo::is_merged`:
`revparse_single` (OID or failure) and `graph_descendant_of`
(`none` models `Err`). -/
structure MergeEnv where
  revparse : String → Option String
  graphDescendantOf : String → String → Option Bool

/-- `GitRepo::is_merged` from `git.rs`: the base (first local, then
`origin/<base>`) must be a graph descendant of the branch tip. The Rust
function only ever returns `Ok(_)`, modelled with `Except Unit Bool`. -/
def is_merged (menv : MergeEnv) (branch base : String) : Except Unit Bool :=
  match menv.revparse branch with
  | none => Except.ok false
  | some branch_oid =>
    let localHit : Bool :=
      match menv.revparse base with
      | some base_oid => menv.graphDescendantOf base_oid branch_oid = some true
      | none => false
    let remoteHit : Bool :=
      match menv.revparse ("origin/" ++ base) with
      | some base_oid => menv.graphDescendantOf base_oid branch_oid = some true
      | none => false
    if localHit then Except.ok true
    else if remoteHit then Except.ok true
    else Except.ok false

/-- The `CleanOptions` struct from `commands/clean.rs` (`stale_days : Option<u32>`). -/
structure CleanOptions where
  merged : Bool
  gone : Bool
  stale_days : Option Nat
  dry_run : Bool
  yes : Bool
  deriving DecidableEq, Repr

/-- The `get_status` closure in `clean.rs::execute`: look the worktree up in
the optional status list by path. -/
def get_status (statuses : Option (List (Worktree × WorktreeStatus)))
    (wt : Worktree) : Option WorktreeStatus :=
  statuses.bind (fun s => (s.find? (fun p => p.1.path = wt.path)).map (fun p => p.2))

/-- The candidate-selection closure in `clean.rs::execute` (lines 51-104):
fixed exclusions first (current directory, main worktree, detached HEAD,
base branch), then the three filters `--merged` / `--gone` / `--stale N`. -/
def clean_filter (fs : FsEnv) (repo : GitRepo) (menv : MergeEnv) (base : String)
    (opts : CleanOptions) (current_path : String)
    (statuses : Option (List (Worktree × WorktreeStatus))) (wt : Worktree) : Bool :=
  if wt.path = current_path then false
  else if wt.is_main_worktree fs repo then false
  else if wt.detached then false
  else if (wt.branch_short.elim false (fun b => decide (b = base)) : Bool) then false
  else
    let mergedHit := opts.merged &&
      (match wt.branch_short with
       | some b => (match is_merged menv b base with
                    | Except.ok true => true
                    | _ => false)
       | none => false)
    let goneHit := opts.gone &&
      (match get_status statuses wt with
       | some s => s.upstream_gone
       | none => false)
    let staleHit :=
      match opts.stale_days with
      | some days =>
        (match get_status statuses wt with
         | some s =>
           (match s.last_commit_time with
            | some seconds => decide (seconds > (days : Int) * 24 * 60 * 60)
            | none => false)
         | none => false)
      | none => false
    mergedHit || goneHit || staleHit

/-- The `candidates` list in `clean.rs::execute`. -/
def clean_select_candidates (fs : FsEnv) (repo : GitRepo) (menv : MergeEnv) (base : String)
    (opts : CleanOptions) (current_path : String)
    (statuses : Option (List (Worktree × WorktreeStatus)))
    (worktrees : List Worktree) : List Worktree :=
  worktrees.filter (clean_filter fs repo menv base opts current_path statuses)

/-- The `candidates_with_dirty` list in `clean.rs::execute`: dirty state
computed once per candidate. -/
def candidates_with_dirty (openRepo : String → Option RepoHandle)
    (cands : List Worktree) : List (Worktree × Bool) :=
  cands.map (fun wt => (wt, is_worktree_dirty openRepo wt))

/-- The `clean_candidates` list in `clean.rs::execute`: candidates that are
not dirty. -/
def clean_worktrees_of (cwd : List (Worktree × Bool)) : List Worktree :=
  (cwd.filter (fun p => !p.2)).map (fun p => p.1)

/-- How a `clean` invocation ends after candidate selection. -/
inductive CleanOutcome
  | noCandidates
  | dryRunStop
  | allDirtyStop
  | aborted
  | gateError
  | removed (count : Nat)
  deriving DecidableEq, Repr

/-- External subprocesses issued by `clean`. -/
inductive CleanCmd
  | worktreeRemove (path : String)
  deriving DecidableEq, Repr

/-- The removal loop at the end of `clean.rs::execute`: each clean candidate
is removed independently; the success counter counts successful removals. -/
def clean_do_removals (removeOk : String → Bool) (cands : List Worktree) :
    Nat × List CleanCmd :=
  ((cands.filter (fun wt => removeOk wt.path)).length,
   cands.map (fun wt => CleanCmd.worktreeRemove wt.path))

/-- The confirmation gate and removal step of `clean.rs::execute`
(lines 150-188): interactive confirmation when `--yes` is absent and stdin
is a terminal; hard error when `--yes` is absent and stdin is not a
terminal; otherwise removal proceeds. -/
def clean_removal_phase (removeOk : String → Bool) (opts : CleanOptions)
    (stdin_is_terminal confirm_answer : Bool)
    (clean_cands : List Worktree) : CleanOutcome × List CleanCmd :=
  if clean_cands.isEmpty then (CleanOutcome.allDirtyStop, [])
  else if !opts.yes && stdin_is_terminal then
    if confirm_answer then
      let r := clean_do_removals removeOk clean_cands
      (CleanOutcome.removed r.1, r.2)
    else (CleanOutcome.aborted, [])
  else if !opts.yes then (CleanOutcome.gateError, [])
  else
    let r := clean_do_removals removeOk clean_cands
    (CleanOutcome.removed r.1, r.2)

/-- The tail of `clean.rs::execute` after candidate selection: empty-candidate
early return, dirty evaluation, dry-run stop, then the gated removal phase. -/
def clean_after_selection (openRepo : String → Option RepoHandle)
    (removeOk : String → Bool) (opts : CleanOptions)
    (stdin_is_terminal confirm_answer : Bool)
    (cands : List Worktree) : CleanOutcome × List CleanCmd :=
  if cands.isEmpty then (CleanOutcome.noCandidates, [])
  else
    let cwd := candidates_with_dirty openRepo cands
    if opts.dry_run then (CleanOutcome.dryRunStop, [])
    else
      clean_removal_phase removeOk opts stdin_is_terminal confirm_answer
        (clean_worktrees_of cwd)

/-- External subprocesses issued by `sync` inside a worktree. -/
inductive SyncCmd
  | rebase (path : String)
  | rebaseAbort (path : String)
  deriving DecidableEq, Repr

/-- The four counters of `sync.rs::execute`. -/
structure SyncCounts where
  synced : Nat
  skipped_dirty : Nat
  skipped_no_upstream : Nat
  failed : Nat
  deriving DecidableEq, Repr

/-- All four sync counters start at zero. -/
def SyncCounts.zero : SyncCounts := ⟨0, 0, 0, 0⟩

/-- One iteration of the loop in `sync.rs::execute` (lines 36-101): the
classification cascade for a single `(worktree, status)` pair, returning the
updated counters and the subprocesses invoked. `rebaseOk p` is the exit
status of `git rebase` run in path `p`. -/
def sync_step (fs : FsEnv) (repo : GitRepo) (openRepo : String → Option RepoHandle)
    (rebaseOk : String → Bool) (dry_run : Bool)
    (wt : Worktree) (status : WorktreeStatus) (c : SyncCounts) :
    SyncCounts × List SyncCmd :=
  if wt.is_main_worktree fs repo then (c, [])
  else if wt.detached then (c, [])
  else if status.upstream.isNone then
    ({ c with skipped_no_upstream := c.skipped_no_upstream + 1 }, [])
  else if status.behind.getD 0 = 0 then (c, [])
  else if is_worktree_dirty openRepo wt then
    ({ c with skipped_dirty := c.skipped_dirty + 1 }, [])
  else if dry_run then ({ c with synced := c.synced + 1 }, [])
  else if rebaseOk wt.path then
    ({ c with synced := c.synced + 1 }, [SyncCmd.rebase wt.path])
  else
    ({ c with failed := c.failed + 1 },
     [SyncCmd.rebase wt.path, SyncCmd.rebaseAbort wt.path])

/-- The whole loop of `sync.rs::execute` over the status pairs, sequentially
threading the counters and concatenating the subprocess trace. -/
def sync_run (fs : FsEnv) (repo : GitRepo) (openRepo : String → Option RepoHandle)
    (rebaseOk : String → Bool) (dry_run : Bool) :
    List (Worktree × WorktreeStatus) → SyncCounts → SyncCounts × List SyncCmd
  | [], c => (c, [])
  | p :: rest, c =>
    let r1 := sync_step fs repo openRepo rebaseOk dry_run p.1 p.2 c
    let r2 := sync_run fs repo openRepo rebaseOk dry_run rest r1.1
    (r2.1, r1.2 ++ r2.2)

/-- The linked-worktree administrative record as read in
`worktree.rs::list_worktrees`: path, `is_prunable(None).unwrap_or(false)`,
and the lock status. -/
structure LinkedInfo where
  path : String
  prunable : Bool
  locked : Bool
  deriving DecidableEq, Repr

/-- Oracle for the discovered repository as used by `list_worktrees`:
the administrative worktree names, `find_worktree` per name (which can
fail), `Repository::open` per path, `is_worktree()` and `path()`. -/
structure GitEnv where
  worktreeNames : List String
  findWt : String → Except Unit LinkedInfo
  openRepo : String → Option RepoHandle
  isWorktree : Bool
  gitPath : String

/-- Head info extracted by `get_repo_head_info` in `worktree.rs`. -/
structure HeadInfo where
  head : String
  branch : Option String
  branch_short : Option String
  detached : Bool
  deriving DecidableEq, Repr

/-- `get_repo_head_info` from `worktree.rs`. -/
def get_repo_head_info (h : RepoHandle) : HeadInfo :=
  match h.headRef with
  | some r =>
    let head_oid := r.target.getD ""
    if h.headDetached then ⟨head_oid, none, none, true⟩
    else ⟨head_oid, r.refName, r.shorthand, false⟩
  | none => ⟨"", none, none, false⟩

/-- The linked-worktree loop of `worktree.rs::list_worktrees` (lines 43-95):
a failing `find_worktree` aborts via `?`; a prunable record or an unopenable
path yields a prunable stub entry. -/
def list_linked (env : GitEnv) : List String → Except Unit (List Worktree)
  | [] => Except.ok []
  | n :: rest =>
    match env.findWt n with
    | Except.error e => Except.error e
    | Except.ok info =>
      let entry : Worktree :=
        if info.prunable then
          ⟨info.path, "", none, none, false, info.locked, true⟩
        else
          match env.openRepo info.path with
          | some h =>
            let hi := get_repo_head_info h
            ⟨info.path, hi.head, hi.branch, hi.branch_short, hi.detached,
             info.locked, false⟩
          | none =>
            ⟨info.path, "", none, none, false, info.locked, true⟩
      match list_linked env rest with
      | Except.error e => Except.error e
      | Except.ok ws => Except.ok (entry :: ws)

/-- The main-worktree path computation in `list_worktrees`: when running from
a linked worktree, walk up two levels from the per-worktree metadata path;
the main path is the parent of the common directory. -/
def main_path_of (fs : FsEnv) (env : GitEnv) : String :=
  let common_dir :=
    if env.isWorktree then ((fs.parent env.gitPath).bind fs.parent).getD env.gitPath
    else env.gitPath
  (fs.parent common_dir).getD common_dir

/-- `list_worktrees` from `worktree.rs`: the linked entries, then a
synthesized main entry unless the main path is unopenable or an entry with
the same canonical path already exists. -/
def list_worktrees (fs : FsEnv) (env : GitEnv) : Except Unit (List Worktree) :=
  match list_linked env env.worktreeNames with
  | Except.error e => Except.error e
  | Except.ok ws =>
    let main_path := main_path_of fs env
    match env.openRepo main_path with
    | some h =>
      if ws.any (fun w => check_same_path fs w.path main_path) then Except.ok ws
      else
        let hi := get_repo_head_info h
        Except.ok (ws ++
          [⟨main_path, hi.head, hi.branch, hi.branch_short, hi.detached,
            false, false⟩])
    | none => Except.ok ws

/-! Concrete fixtures used by witness theorems. -/

/-- Witness filesystem: canonicalisation is the identity and only the main
metadata directory has a known parent. -/
def fsW : FsEnv :=
  ⟨fun p => some p, fun p => if p = "/repo/.git" then some "/repo" else none⟩

/-- Witness repository rooted at `/repo`. -/
def repoW : GitRepo := ⟨"/repo", "/repo/.git"⟩

/-- Witness merge oracle in which nothing resolves. -/
def menvW : MergeEnv := ⟨fun _ => none, fun _ _ => none⟩

/-- Witness linked worktree on branch `feat`. -/
def wtW : Worktree :=
  ⟨"/wts/feat", "h1", some "refs/heads/feat", some "feat", false, false, false⟩

/-- Witness status whose upstream is gone. -/
def stGoneW : WorktreeStatus :=
  ⟨0, some "origin/feat", none, none, none, none, none, true⟩

/-- Witness status whose last commit is six days old. -/
def stStaleW : WorktreeStatus :=
  ⟨0, none, none, none, some 518400, none, none, false⟩

/-- Witness repo-open oracle: no path opens. -/
def openNoneW : String → Option RepoHandle := fun _ => none

/-- Witness status: two commits behind a configured upstream. -/
def stBehindW : WorktreeStatus :=
  ⟨0, some "origin/feat", some 0, some 2, none, none, none, false⟩

/-- Witness rebase oracle: every rebase fails. -/
def rebaseFailW : String → Bool := fun _ => false

/-- Counterexample worktree for C9: short branch name `featA`, final path
segment `featB`. -/
def wtC9 : Worktree :=
  ⟨"/x/featB", "h", some "refs/heads/featA", some "featA", false, false, false⟩

/-- Witness repository handle on branch `main`. -/
def hdMainW : RepoHandle :=
  ⟨some ⟨some "oidm", true, some "refs/heads/main", some "main"⟩, false,
   some 0, fun _ => none, some 0, fun _ _ => none⟩

/-- Witness environment for C6: one linked worktree and an openable main. -/
def envC6 : GitEnv :=
  ⟨["wt1"], fun _ => Except.ok ⟨"/wts/wt1", false, false⟩,
   fun _ => some hdMainW, false, "/repo/.git"⟩

/-- The linked-entry list produced for `envC6` and `envC6cex`. -/
def wsC6 : List Worktree :=
  [⟨"/wts/wt1", "oidm", some "refs/heads/main", some "main", false, false, false⟩]

/-- Counterexample environment for C6: the linked worktree opens but the main
worktree path does not (its checkout is gone), so no main entry is
synthesized. -/
def envC6cex : GitEnv :=
  ⟨["wt1"], fun _ => Except.ok ⟨"/wts/wt1", false, false⟩,
   fun p => if p = "/wts/wt1" then some hdMainW else none, false, "/repo/.git"⟩

/-- Counterexample environment for C7: the lookup of worktree `a` fails while
worktree `b` is intact. -/
def envC7 : GitEnv :=
  ⟨["a", "b"],
   fun n => if n = "b" then Except.ok ⟨"/wts/b", false, false⟩ else Except.error (),
   fun _ => some hdMainW, false, "/repo/.git"⟩

/-- Witness environment for C7 amended: the lookup succeeds but the worktree
path cannot be opened. -/
def envBrokenW : GitEnv :=
  ⟨["c"], fun _ => Except.ok ⟨"/wts/c", false, false⟩, fun _ => none, false,
   "/repo/.git"⟩

/-- Counterexample handle for C8: a detached HEAD that still resolves to a
commit. -/
def hdDetW : RepoHandle :=
  ⟨some ⟨some "oid", false, none, none⟩, true, some 0, fun _ => none,
   some 100, fun _ _ => some (1, 2)⟩

/-- Counterexample open oracle for C8. -/
def openDetW : String → Option RepoHandle := fun _ => some hdDetW

/-- Counterexample worktree for C8: detached. -/
def wtDetW : Worktree := ⟨"/det", "oid", none, none, true, false, false⟩

/-- C1: clean-candidate selection never selects the current directory's
worktree, the main worktree, a detached worktree, or a worktree on the
configured base branch, whatever combination of the merged/gone/stale
filters is active. -/
theorem clean_never_selects_protected
    (fs : FsEnv) (repo : GitRepo) (menv : MergeEnv) (base : String)
    (opts : CleanOptions) (current_path : String)
    (statuses : Option (List (Worktree × WorktreeStatus)))
    (worktrees : List Worktree) (wt : Worktree)
    (hmem : wt ∈ clean_select_candidates fs repo menv base opts current_path
      statuses worktrees) :
    wt.path ≠ current_path ∧ wt.is_main_worktree fs repo = false ∧
      wt.detached = false ∧ wt.branch_short ≠ some base := by
  unfold clean_select_candidates at hmem
  have h := (List.mem_filter.mp hmem).2
  refine ⟨?_, ?_, ?_, ?_⟩
  · intro hp
    simp [clean_filter, hp] at h
  · by_contra hm
    rw [Bool.not_eq_false] at hm
    simp [clean_filter, hm] at h
  · by_contra hd
    rw [Bool.not_eq_false] at hd
    simp [clean_filter, hd] at h
  · intro hb
    simp [clean_filter, hb] at h

/-- Witness for C1: a concrete upstream-gone worktree is selected, and the
four exclusions hold of it. -/
theorem clean_never_selects_protected_witness :
    wtW.path ≠ "/repo" ∧ wtW.is_main_worktree fsW repoW = false ∧
      wtW.detached = false ∧ wtW.branch_short ≠ some "main" :=
  clean_never_selects_protected fsW repoW menvW "main"
    ⟨false, true, none, false, false⟩ "/repo" (some [(wtW, stGoneW)]) [wtW] wtW
    (by decide)

/-- C4: with only the stale filter active and the fixed exclusions passing,
selection holds exactly when the status carries a last-commit age strictly
greater than `N` days in seconds; an age of `N+1` days qualifies and an age
of `N-1` days does not. -/
theorem clean_stale_iff
    (fs : FsEnv) (repo : GitRepo) (menv : MergeEnv) (base current_path : String)
    (statuses : Option (List (Worktree × WorktreeStatus)))
    (dry_run yes : Bool) (N : Nat) (wt : Worktree)
    (hp : wt.path ≠ current_path) (hm : wt.is_main_worktree fs repo = false)
    (hd : wt.detached = false) (hb : wt.branch_short ≠ some base) :
    (clean_filter fs repo menv base ⟨false, false, some N, dry_run, yes⟩
        current_path statuses wt = true ↔
      ∃ s sec, get_status statuses wt = some s ∧ s.last_commit_time = some sec ∧
        (N : Int) * 86400 < sec)
    ∧ (∀ s, get_status statuses wt = some s →
        s.last_commit_time = some (((N : Int) + 1) * 86400) →
        clean_filter fs repo menv base ⟨false, false, some N, dry_run, yes⟩
          current_path statuses wt = true)
    ∧ (∀ s, get_status statuses wt = some s →
        s.last_commit_time = some (((N : Int) - 1) * 86400) →
        clean_filter fs repo menv base ⟨false, false, some N, dry_run, yes⟩
          current_path statuses wt = false) := by
  have hbase : (wt.branch_short.elim false (fun b => decide (b = base)) : Bool) = false := by
    cases hbs : wt.branch_short with
    | none => rfl
    | some b =>
      have hne : b ≠ base := by
        intro hEq
        exact hb (by rw [hbs, hEq])
      simp [Option.elim, hne]
  have hcore : clean_filter fs repo menv base ⟨false, false, some N, dry_run, yes⟩
      current_path statuses wt =
      (match get_status statuses wt with
       | some s =>
         (match s.last_commit_time with
          | some seconds => decide (seconds > (N : Int) * 24 * 60 * 60)
          | none => false)
       | none => false) := by
    simp [clean_filter, hp, hm, hd, hbase]
  refine ⟨⟨?_, ?_⟩, ?_, ?_⟩
  · intro h
    rw [hcore] at h
    rcases hgs : get_status statuses wt with _ | s
    · simp [hgs] at h
    · simp only [hgs] at h
      rcases hlc : s.last_commit_time with _ | sec
      · simp [hlc] at h
      · simp only [hlc, decide_eq_true_eq] at h
        exact ⟨s, sec, rfl, hlc, by omega⟩
  · rintro ⟨s, sec, hgs, hlc, hgt⟩
    rw [hcore]
    simp only [hgs, hlc, decide_eq_true_eq]
    omega
  · intro s hs hl
    rw [hcore]
    simp only [hs, hl, decide_eq_true_eq]
    omega
  · intro s hs hl
    rw [hcore]
    simp only [hs, hl, decide_eq_false_iff_not]
    intro hgt
    omega

/-- Witness for C4: age six days with `--stale 5` is selected. -/
theorem clean_stale_iff_witness :
    clean_filter fsW repoW menvW "main" ⟨false, false, some 5, false, false⟩
      "/repo" (some [(wtW, stStaleW)]) wtW = true :=
  (clean_stale_iff fsW repoW menvW "main" "/repo" (some [(wtW, stStaleW)])
    false false 5 wtW (by decide) (by decide) rfl (by decide)).2.1 stStaleW
    (by decide) (by decide)

/-- Case analysis of one sync loop iteration: the possible counter updates
and subprocess traces. -/
lemma sync_step_cases (fs : FsEnv) (repo : GitRepo)
    (openRepo : String → Option RepoHandle) (rebaseOk : String → Bool)
    (dry_run : Bool) (wt : Worktree) (status : WorktreeStatus) (c : SyncCounts) :
    sync_step fs repo openRepo rebaseOk dry_run wt status c = (c, []) ∨
    sync_step fs repo openRepo rebaseOk dry_run wt status c
      = ({ c with skipped_no_upstream := c.skipped_no_upstream + 1 }, []) ∨
    sync_step fs repo openRepo rebaseOk dry_run wt status c
      = ({ c with skipped_dirty := c.skipped_dirty + 1 }, []) ∨
    sync_step fs repo openRepo rebaseOk dry_run wt status c
      = ({ c with synced := c.synced + 1 }, []) ∨
    (sync_step fs repo openRepo rebaseOk dry_run wt status c
      = ({ c with synced := c.synced + 1 }, [SyncCmd.rebase wt.path])
      ∧ rebaseOk wt.path = true) ∨
    (sync_step fs repo openRepo rebaseOk dry_run wt status c
      = ({ c with failed := c.failed + 1 },
         [SyncCmd.rebase wt.path, SyncCmd.rebaseAbort wt.path])
      ∧ rebaseOk wt.path = false) := by
  unfold sync_step
  repeat' split <;> simp_all

/-- If an iteration issued a rebase in `wt.path` and that rebase fails, the
iteration ends with exactly a rebase followed by its abort, counting one
failure. -/
lemma sync_step_rebase_fail (fs : FsEnv) (repo : GitRepo)
    (openRepo : String → Option RepoHandle) (rebaseOk : String → Bool)
    (wt : Worktree) (status : WorktreeStatus) (c0 : SyncCounts)
    (hfail : rebaseOk wt.path = false)
    (hreb : SyncCmd.rebase wt.path
      ∈ (sync_step fs repo openRepo rebaseOk false wt status c0).2) :
    sync_step fs repo openRepo rebaseOk false wt status c0
      = ({ c0 with failed := c0.failed + 1 },
         [SyncCmd.rebase wt.path, SyncCmd.rebaseAbort wt.path]) := by
  rcases sync_step_cases fs repo openRepo rebaseOk false wt status c0 with
    h | h | h | h | ⟨h, hok⟩ | ⟨h, _⟩
  · rw [h] at hreb; simp at hreb
  · rw [h] at hreb; simp at hreb
  · rw [h] at hreb; simp at hreb
  · rw [h] at hreb; simp at hreb
  · rw [hok] at hfail; cases hfail
  · exact h

/-- Every rebase of a path whose rebase fails is matched by an abort of that
path somewhere in the sync run's subprocess trace. -/
lemma sync_run_abort_mem (fs : FsEnv) (repo : GitRepo)
    (openRepo : String → Option RepoHandle) (rebaseOk : String → Bool)
    (p : String) (hfail : rebaseOk p = false) :
    ∀ (pairs : List (Worktree × WorktreeStatus)) (c : SyncCounts),
      SyncCmd.rebase p ∈ (sync_run fs repo openRepo rebaseOk false pairs c).2 →
      SyncCmd.rebaseAbort p ∈ (sync_run fs repo openRepo rebaseOk false pairs c).2 := by
  intro pairs
  induction pairs with
  | nil => intro c h; simp [sync_run] at h
  | cons pr rest ih =>
    intro c h
    rw [sync_run] at h ⊢
    simp only [List.mem_append] at h ⊢
    rcases h with h1 | h2
    · left
      rcases sync_step_cases fs repo openRepo rebaseOk false pr.1 pr.2 c with
        hc | hc | hc | hc | ⟨hc, hok⟩ | ⟨hc, _⟩
      · rw [hc] at h1; simp at h1
      · rw [hc] at h1; simp at h1
      · rw [hc] at h1; simp at h1
      · rw [hc] at h1; simp at h1
      · rw [hc] at h1
        simp only [List.mem_singleton] at h1
        obtain rfl : p = pr.1.path := by
          cases h1; rfl
        rw [hok] at hfail; cases hfail
      · rw [hc] at h1 ⊢
        have hp : p = pr.1.path := by
          rcases List.mem_cons.mp h1 with h | h
          · cases h; rfl
          · simp at h
        rw [hp]
        simp
    · right
      exact ih _ h2

/-- C2: in a non-dry-run sync, whenever the rebase issued for a worktree
fails, a rebase abort for the same worktree is issued before the run moves
on, and the failed counter is incremented by one for that worktree. -/
theorem sync_rebase_failure_always_aborts
    (fs : FsEnv) (repo : GitRepo) (openRepo : String → Option RepoHandle)
    (rebaseOk : String → Bool) (pairs : List (Worktree × WorktreeStatus))
    (c : SyncCounts) (p : String)
    (hfail : rebaseOk p = false)
    (hreb : SyncCmd.rebase p ∈ (sync_run fs repo openRepo rebaseOk false pairs c).2) :
    SyncCmd.rebaseAbort p ∈ (sync_run fs repo openRepo rebaseOk false pairs c).2
    ∧ ∀ wt status c0, wt.path = p →
        SyncCmd.rebase p ∈ (sync_step fs repo openRepo rebaseOk false wt status c0).2 →
        sync_step fs repo openRepo rebaseOk false wt status c0
          = ({ c0 with failed := c0.failed + 1 },
             [SyncCmd.rebase p, SyncCmd.rebaseAbort p]) := by
  refine ⟨sync_run_abort_mem fs repo openRepo rebaseOk p hfail pairs c hreb, ?_⟩
  intro wt status c0 hp hreb0
  subst hp
  exact sync_step_rebase_fail fs repo openRepo rebaseOk wt status c0 hfail hreb0

/-- Witness for C2: a concrete failing rebase is followed by its abort in the
sync trace. -/
theorem sync_rebase_failure_always_aborts_witness :
    SyncCmd.rebaseAbort "/wts/feat"
      ∈ (sync_run fsW repoW openNoneW rebaseFailW false [(wtW, stBehindW)]
          SyncCounts.zero).2 :=
  (sync_rebase_failure_always_aborts fsW repoW openNoneW rebaseFailW
    [(wtW, stBehindW)] SyncCounts.zero "/wts/feat" rfl (by decide)).1

/-- C3: the classification cascade of one sync iteration follows the fixed
order: main/detached skipped with no counter, then missing upstream counts
skipped-no-upstream, then zero behind skipped with no counter, then dirty
counts skipped-dirty, then dry-run counts synced without any subprocess,
then a successful rebase counts synced. -/
theorem sync_classification_order
    (fs : FsEnv) (repo : GitRepo) (openRepo : String → Option RepoHandle)
    (rebaseOk : String → Bool) (dry_run : Bool) (wt : Worktree)
    (status : WorktreeStatus) (c : SyncCounts) :
    (wt.is_main_worktree fs repo = true ∨ wt.detached = true →
      sync_step fs repo openRepo rebaseOk dry_run wt status c = (c, []))
    ∧ (wt.is_main_worktree fs repo = false → wt.detached = false →
       status.upstream = none →
      sync_step fs repo openRepo rebaseOk dry_run wt status c
        = ({ c with skipped_no_upstream := c.skipped_no_upstream + 1 }, []))
    ∧ (wt.is_main_worktree fs repo = false → wt.detached = false →
       status.upstream ≠ none → status.behind.getD 0 = 0 →
      sync_step fs repo openRepo rebaseOk dry_run wt status c = (c, []))
    ∧ (wt.is_main_worktree fs repo = false → wt.detached = false →
       status.upstream ≠ none → status.behind.getD 0 ≠ 0 →
       is_worktree_dirty openRepo wt = true →
      sync_step fs repo openRepo rebaseOk dry_run wt status c
        = ({ c with skipped_dirty := c.skipped_dirty + 1 }, []))
    ∧ (wt.is_main_worktree fs repo = false → wt.detached = false →
       status.upstream ≠ none → status.behind.getD 0 ≠ 0 →
       is_worktree_dirty openRepo wt = false → dry_run = true →
      sync_step fs repo openRepo rebaseOk dry_run wt status c
        = ({ c with synced := c.synced + 1 }, []))
    ∧ (wt.is_main_worktree fs repo = false → wt.detached = false →
       status.upstream ≠ none → status.behind.getD 0 ≠ 0 →
       is_worktree_dirty openRepo wt = false → dry_run = false →
       rebaseOk wt.path = true →
      sync_step fs repo openRepo rebaseOk dry_run wt status c
        = ({ c with synced := c.synced + 1 }, [SyncCmd.rebase wt.path])) := by
  refine ⟨?_, ?_, ?_, ?_, ?_, ?_⟩
  · intro h1
    rcases h1 with h1 | h1
    · simp [sync_step, h1]
    · simp [sync_step, h1]
  · intro hmain hdet hup
    simp [sync_step, hmain, hdet, hup]
  · intro hmain hdet hup hb
    simp [sync_step, hmain, hdet, Option.isNone_iff_eq_none, hup, hb]
  · intro hmain hdet hup hb hdirty
    simp [sync_step, hmain, hdet, Option.isNone_iff_eq_none, hup, hb, hdirty]
  · intro hmain hdet hup hb hdirty hdry
    simp [sync_step, hmain, hdet, Option.isNone_iff_eq_none, hup, hb, hdirty, hdry]
  · intro hmain hdet hup hb hdirty hdry hok
    simp [sync_step, hmain, hdet, Option.isNone_iff_eq_none, hup, hb, hdirty, hdry, hok]

/-- Witness for C3: a clean, behind worktree under dry run is counted synced
with no subprocess invoked. -/
theorem sync_classification_order_witness :
    sync_step fsW repoW openNoneW rebaseFailW true wtW stBehindW SyncCounts.zero
      = ({ SyncCounts.zero with synced := 1 }, []) :=
  (sync_classification_order fsW repoW openNoneW rebaseFailW true wtW stBehindW
    SyncCounts.zero).2.2.2.2.1 (by decide) rfl (by decide) (by decide) rfl rfl

/-- C5: with a non-empty clean-candidate set, removal subprocesses are issued
only when the bypass flag is set or an interactive confirmation succeeds on
a terminal; with the bypass absent and stdin not a terminal the invocation
fails with an error and no removal subprocess is issued. -/
theorem clean_gate_guards_removal
    (removeOk : String → Bool) (opts : CleanOptions) (term confirm : Bool)
    (cands : List Worktree) (hne : cands ≠ []) :
    ((clean_removal_phase removeOk opts term confirm cands).2 ≠ [] →
      opts.yes = true ∨ (term = true ∧ confirm = true))
    ∧ (opts.yes = false → term = false →
      clean_removal_phase removeOk opts term confirm cands
        = (CleanOutcome.gateError, [])) := by
  have hempty : cands.isEmpty = false := by
    cases cands with
    | nil => exact absurd rfl hne
    | cons a l => rfl
  constructor
  · intro hcmds
    by_cases hy : opts.yes = true
    · exact Or.inl hy
    · rw [Bool.not_eq_true] at hy
      by_cases ht : term = true
      · by_cases hc : confirm = true
        · exact Or.inr ⟨ht, hc⟩
        · rw [Bool.not_eq_true] at hc
          exact absurd (by simp [clean_removal_phase, hempty, hy, ht, hc]) hcmds
      · rw [Bool.not_eq_true] at ht
        exact absurd (by simp [clean_removal_phase, hempty, hy, ht]) hcmds
  · intro hy ht
    simp [clean_removal_phase, hempty, hy, ht]

/-- Witness for C5: one clean candidate, no bypass, no terminal: the gate
errors out and no removal command is issued. -/
theorem clean_gate_guards_removal_witness :
    clean_removal_phase (fun _ => true) ⟨false, true, none, false, false⟩
      false false [wtW] = (CleanOutcome.gateError, []) :=
  (clean_gate_guards_removal (fun _ => true) ⟨false, true, none, false, false⟩
    false false [wtW] (by decide)).2 rfl rfl

/-- C10: a worktree whose path cannot be opened is reported not dirty, so an
unreadable clean candidate stays in the clean set that reaches the removal
step. -/
theorem unreadable_candidate_reaches_removal
    (openRepo : String → Option RepoHandle) (cands : List Worktree)
    (wt : Worktree) (hmem : wt ∈ cands) (hopen : openRepo wt.path = none) :
    is_worktree_dirty openRepo wt = false
    ∧ wt ∈ clean_worktrees_of (candidates_with_dirty openRepo cands) := by
  have hdirty : is_worktree_dirty openRepo wt = false := by
    unfold is_worktree_dirty
    rw [hopen]
  refine ⟨hdirty, ?_⟩
  unfold clean_worktrees_of candidates_with_dirty
  refine List.mem_map.mpr ⟨(wt, false), ?_, rfl⟩
  refine List.mem_filter.mpr ⟨?_, rfl⟩
  exact List.mem_map.mpr ⟨wt, hmem, by rw [hdirty]⟩

/-- Witness for C10: a concrete unreadable candidate reaches the removal set. -/
theorem unreadable_candidate_reaches_removal_witness :
    is_worktree_dirty openNoneW wtW = false
    ∧ wtW ∈ clean_worktrees_of (candidates_with_dirty openNoneW [wtW]) :=
  unreadable_candidate_reaches_removal openNoneW [wtW] wtW (by decide) rfl

/-- Counterexample for C9: a worktree whose short branch name is present and
differs from the lookup name is still matched through its final path
segment. -/
theorem find_worktree_branch_mismatch_cex :
    wtC9.branch_short = some "featA" ∧ ("featA" : String) ≠ "featB"
    ∧ find_worktree [wtC9] "featB" = some wtC9 :=
  ⟨rfl, by decide, by decide⟩

/-- C9 amended: find-by-name matches a worktree when its short branch name
equals the lookup name or its final path segment does (first hit in list
order); a differing branch name does not prevent a path-segment match. -/
theorem find_worktree_matches_branch_or_segment
    (worktrees : List Worktree) (name : String) :
    (∀ wt, find_worktree worktrees name = some wt →
      wt ∈ worktrees
      ∧ (wt.branch_short = some name ∨ pathFileName wt.path = some name))
    ∧ (∀ wt, wt ∈ worktrees →
      (wt.branch_short = some name ∨ pathFileName wt.path = some name) →
      (find_worktree worktrees name).isSome = true) := by
  constructor
  · intro wt hf
    unfold find_worktree at hf
    have hmem := List.mem_of_find?_eq_some hf
    have hp := List.find?_some hf
    simp only [Bool.or_eq_true, decide_eq_true_eq] at hp
    exact ⟨hmem, hp⟩
  · intro wt hmem hor
    unfold find_worktree
    rw [List.find?_isSome]
    refine ⟨wt, hmem, ?_⟩
    simp only [Bool.or_eq_true, decide_eq_true_eq]
    exact hor

/-- Witness for C9 amended: a branch-name match is found. -/
theorem find_worktree_matches_branch_or_segment_witness :
    (find_worktree [wtW] "feat").isSome = true :=
  (find_worktree_matches_branch_or_segment [wtW] "feat").2 wtW (by decide)
    (Or.inl rfl)

/-- C6 amended: under the standard layout (running from the main worktree,
the main path openable, every linked worktree path distinct from the main
path both literally and canonically), enumeration returns a list in which
exactly one entry satisfies the is-main-worktree predicate; when the main
path cannot be opened the main entry is dropped and no entry need be main
(see the counterexample). -/
theorem list_worktrees_exactly_one_main
    (fs : FsEnv) (env : GitEnv) (repo : GitRepo) (ws : List Worktree)
    (mp : String) (h : RepoHandle)
    (hw : env.isWorktree = false)
    (hcd : repo.common_dir = env.gitPath)
    (hpar : fs.parent env.gitPath = some mp)
    (hroot : repo.root = mp)
    (hlinked : list_linked env env.worktreeNames = Except.ok ws)
    (hopen : env.openRepo mp = some h)
    (hdistinct : ∀ w ∈ ws, w.path ≠ mp ∧ check_same_path fs w.path mp = false) :
    ∃ all, list_worktrees fs env = Except.ok all
      ∧ all.countP (fun w => w.is_main_worktree fs repo) = 1 := by
  have hmp : main_path_of fs env = mp := by
    simp [main_path_of, hw, hpar]
  have hopen2 : env.openRepo (main_path_of fs env) = some h := by
    rw [hmp]; exact hopen
  have hany : (ws.any fun w => check_same_path fs w.path (main_path_of fs env)) = false := by
    rw [hmp]
    apply Bool.eq_false_iff.mpr
    intro hcontra
    rw [List.any_eq_true] at hcontra
    obtain ⟨w, hwmem, hp⟩ := hcontra
    rw [(hdistinct w hwmem).2] at hp
    cases hp
  refine ⟨ws ++ [⟨main_path_of fs env, (get_repo_head_info h).head,
      (get_repo_head_info h).branch, (get_repo_head_info h).branch_short,
      (get_repo_head_info h).detached, false, false⟩], ?_, ?_⟩
  · simp [list_worktrees, hlinked, hopen2, hany]
  · rw [List.countP_append]
    have h0 : ws.countP (fun w => w.is_main_worktree fs repo) = 0 := by
      rw [List.countP_eq_zero]
      intro w hwmem
      unfold Worktree.is_main_worktree
      rw [hcd, hpar, hroot]
      obtain ⟨hne, hcs⟩ := hdistinct w hwmem
      simp only [hcs, Bool.or_false, decide_eq_true_eq, Option.some.injEq]
      exact fun heq => hne heq.symm
    have hmain : Worktree.is_main_worktree
        ⟨main_path_of fs env, (get_repo_head_info h).head,
         (get_repo_head_info h).branch, (get_repo_head_info h).branch_short,
         (get_repo_head_info h).detached, false, false⟩ fs repo = true := by
      unfold Worktree.is_main_worktree
      rw [hcd, hpar, hmp]
      simp
    rw [h0]
    simp [List.countP_cons, hmain]

/-- Witness for C6: concrete enumeration with exactly one main entry. -/
theorem list_worktrees_exactly_one_main_witness :
    ∃ all, list_worktrees fsW envC6 = Except.ok all
      ∧ all.countP (fun w => w.is_main_worktree fsW repoW) = 1 :=
  list_worktrees_exactly_one_main fsW envC6 repoW wsC6 "/repo" hdMainW
    rfl rfl rfl rfl rfl rfl (by decide)

/-- Counterexample for C6: with the main worktree path unopenable, the main
entry is silently dropped and the returned snapshot contains zero entries
satisfying the is-main-worktree predicate, refuting the unconditional
exactly-one invariant. -/
theorem list_worktrees_zero_main_cex :
    envC6cex.openRepo "/repo" = none
    ∧ list_worktrees fsW envC6cex = Except.ok wsC6
    ∧ wsC6.countP (fun w => w.is_main_worktree fsW repoW) = 0 :=
  ⟨rfl, rfl, rfl⟩

/-- Counterexample for C7: a failure while inspecting one linked worktree
(the administrative lookup of `a`) makes the whole enumeration return an
error instead of degrading only that entry. -/
theorem list_worktrees_abort_cex :
    envC7.findWt "a" = Except.error ()
    ∧ envC7.findWt "b" = Except.ok ⟨"/wts/b", false, false⟩
    ∧ list_worktrees fsW envC7 = Except.error () :=
  ⟨rfl, rfl, rfl⟩

/-- C7 amended: a failure to open a linked worktree's repository degrades
that entry to a prunable stub and leaves the rest intact, but a failure of
the administrative lookup aborts the whole enumeration with an error. -/
theorem list_linked_failure_modes
    (env : GitEnv) (n : String) (rest : List String) :
    (∀ info ws, env.findWt n = Except.ok info → info.prunable = false →
      env.openRepo info.path = none →
      list_linked env rest = Except.ok ws →
      list_linked env (n :: rest)
        = Except.ok (⟨info.path, "", none, none, false, info.locked, true⟩ :: ws))
    ∧ (∀ e, env.findWt n = Except.error e →
      list_linked env (n :: rest) = Except.error e)
    ∧ (∀ (fs : FsEnv) e, list_linked env env.worktreeNames = Except.error e →
      list_worktrees fs env = Except.error e) := by
  refine ⟨?_, ?_, ?_⟩
  · intro info ws hfind hpr hopen hrest
    simp [list_linked, hfind, hpr, hopen, hrest]
  · intro e hfind
    simp [list_linked, hfind]
  · intro fs e herr
    simp [list_worktrees, herr]

/-- Witness for C7 amended: the unopenable worktree becomes a prunable stub. -/
theorem list_linked_failure_modes_witness :
    list_linked envBrokenW ["c"]
      = Except.ok [⟨"/wts/c", "", none, none, false, false, true⟩] :=
  (list_linked_failure_modes envBrokenW "c" []).1 ⟨"/wts/c", false, false⟩ []
    rfl rfl rfl rfl

/-- Counterexample for C8: for a detached worktree the upstream fields are
absent while seconds-since-last-commit and behind-shared-base are present,
so the optional fields are not absent together. -/
theorem status_detached_not_all_absent_cex :
    wtDetW.detached = true
    ∧ (get_worktree_status_full openDetW 1000 (some "m") wtDetW).upstream = none
    ∧ (get_worktree_status_full openDetW 1000 (some "m") wtDetW).ahead = none
    ∧ (get_worktree_status_full openDetW 1000 (some "m") wtDetW).last_commit_time
        = some 900
    ∧ (get_worktree_status_full openDetW 1000 (some "m") wtDetW).behind_main
        = some 2 :=
  ⟨rfl, rfl, rfl, by decide, rfl⟩

/-- C8 amended: for an unreadable worktree the whole status is the all-absent
default; for a detached worktree the upstream, ahead, behind and
untracked-commit fields are absent, while last-commit age and
behind-shared-base may still be present. -/
theorem status_optional_fields_amended
    (openRepo : String → Option RepoHandle) (now : Int) (mo : Option String)
    (wt : Worktree) :
    (openRepo wt.path = none →
      get_worktree_status_full openRepo now mo wt = WorktreeStatus.default)
    ∧ (wt.detached = true →
      (get_worktree_status_full openRepo now mo wt).upstream = none
      ∧ (get_worktree_status_full openRepo now mo wt).ahead = none
      ∧ (get_worktree_status_full openRepo now mo wt).behind = none
      ∧ (get_worktree_status_full openRepo now mo wt).untracked_commits = none) := by
  constructor
  · intro hopen
    unfold get_worktree_status_full
    rw [hopen]
  · intro hdet
    rcases hopen : openRepo wt.path with _ | h
    · simp [get_worktree_status_full, hopen, WorktreeStatus.default]
    · refine ⟨?_, ?_, ?_, ?_⟩
      · simp [get_worktree_status_full, hopen, get_ahead_behind, hdet]
      · simp [get_worktree_status_full, hopen, get_ahead_behind, hdet]
      · simp [get_worktree_status_full, hopen, get_ahead_behind, hdet]
      · cases mo with
        | none => simp [get_worktree_status_full, hopen]
        | some m =>
          rcases hh : h.headRef.bind (fun r => r.target) with _ | ho
          · simp [get_worktree_status_full, hopen, hh]
          · simp [get_worktree_status_full, hopen, hh, get_ahead_behind, hdet]

/-- Witness for C8 amended: an unreadable worktree yields the default status. -/
theorem status_optional_fields_amended_witness :
    get_worktree_status_full openNoneW 0 none wtW = WorktreeStatus.default :=
  (status_optional_fields_amended openNoneW 0 none wtW).1 rfl

end Workty
